import Mathlib

/-!
Verification of the unit-conversion core of the groundwater heavy-metal
sample repository.  The definitions below are a shallow embedding of
`src/utils/unitConversion.ts`: numeric values are modelled as exact
rationals, TypeScript records as Lean functions, `null` as `Option`.
-/

namespace UnitConversion

/-- The closed enumeration of supported concentration units, in the
declaration order of the TypeScript `enum Unit` (MG_L, PPM, PPB, UG_L). -/
inductive Unit where
  | MG_L
  | PPM
  | PPB
  | UG_L
deriving DecidableEq, Repr

open Unit

/-- Modelled from the spec: the `Metal` enumeration lives in `src/types.ts`,
which is not part of the provided sources; the spec fixes it as a closed set
of eight identifiers (Pb, As, Hg, Cd, Cr, Ni, Zn, Fe), which is also exactly
the key set of the total record `TYPICAL_RANGES` in the provided source. -/
inductive Metal where
  | Pb
  | As
  | Hg
  | Cd
  | Cr
  | Ni
  | Zn
  | Fe
deriving DecidableEq, Repr

/-- All metals, in the declaration order of `TYPICAL_RANGES`. -/
def allMetals : List Metal :=
  [Metal.Pb, Metal.As, Metal.Hg, Metal.Cd, Metal.Cr, Metal.Ni, Metal.Zn, Metal.Fe]

/-- The `UnitInfo` record of the source: display symbol, descriptive name
and the multiplicative factor to the canonical unit mg/L. -/
structure UnitInfo where
  symbol : String
  name : String
  toMgL : ℚ
deriving DecidableEq, Repr

/-- The Unit Registry `UNIT_INFO` of the source, entry for entry. -/
def UNIT_INFO : Unit → UnitInfo
  | MG_L => { symbol := "mg/L", name := "Milligrams per Liter", toMgL := 1 }
  | PPM => { symbol := "ppm", name := "Parts per Million", toMgL := 1 }
  | PPB => { symbol := "ppb", name := "Parts per Billion", toMgL := 0.001 }
  | UG_L => { symbol := "μg/L", name := "Micrograms per Liter", toMgL := 0.001 }

/-- `Object.values(Unit)` of the source: the units in enumeration order. -/
def AVAILABLE_UNITS : List Unit := [MG_L, PPM, PPB, UG_L]

/-- A `{ min, max }` plausibility band of the Typical-Range Table. -/
structure TypicalRange where
  min : ℚ
  max : ℚ
deriving DecidableEq, Repr

/-- The `TYPICAL_RANGES` table of the source, keyed by metal and unit. -/
def TYPICAL_RANGES : Metal → Unit → TypicalRange
  | Metal.Pb, MG_L => ⟨0.0001, 0.1⟩
  | Metal.Pb, PPM => ⟨0.0001, 0.1⟩
  | Metal.Pb, PPB => ⟨0.1, 100⟩
  | Metal.Pb, UG_L => ⟨0.1, 100⟩
  | Metal.As, MG_L => ⟨0.0001, 0.1⟩
  | Metal.As, PPM => ⟨0.0001, 0.1⟩
  | Metal.As, PPB => ⟨0.1, 100⟩
  | Metal.As, UG_L => ⟨0.1, 100⟩
  | Metal.Hg, MG_L => ⟨0.00001, 0.01⟩
  | Metal.Hg, PPM => ⟨0.00001, 0.01⟩
  | Metal.Hg, PPB => ⟨0.01, 10⟩
  | Metal.Hg, UG_L => ⟨0.01, 10⟩
  | Metal.Cd, MG_L => ⟨0.0001, 0.01⟩
  | Metal.Cd, PPM => ⟨0.0001, 0.01⟩
  | Metal.Cd, PPB => ⟨0.1, 10⟩
  | Metal.Cd, UG_L => ⟨0.1, 10⟩
  | Metal.Cr, MG_L => ⟨0.001, 0.5⟩
  | Metal.Cr, PPM => ⟨0.001, 0.5⟩
  | Metal.Cr, PPB => ⟨1, 500⟩
  | Metal.Cr, UG_L => ⟨1, 500⟩
  | Metal.Ni, MG_L => ⟨0.001, 0.2⟩
  | Metal.Ni, PPM => ⟨0.001, 0.2⟩
  | Metal.Ni, PPB => ⟨1, 200⟩
  | Metal.Ni, UG_L => ⟨1, 200⟩
  | Metal.Zn, MG_L => ⟨0.01, 10⟩
  | Metal.Zn, PPM => ⟨0.01, 10⟩
  | Metal.Zn, PPB => ⟨10, 10000⟩
  | Metal.Zn, UG_L => ⟨10, 10000⟩
  | Metal.Fe, MG_L => ⟨0.01, 5⟩
  | Metal.Fe, PPM => ⟨0.01, 5⟩
  | Metal.Fe, PPB => ⟨10, 5000⟩
  | Metal.Fe, UG_L => ⟨10, 5000⟩

/-- `convertUnit` of the source: identity short-circuit on equal units,
otherwise multiply by the source factor and divide by the target factor. -/
def convertUnit (value : ℚ) (fromUnit toUnit : Unit) : ℚ :=
  if fromUnit = toUnit then value
  else value * (UNIT_INFO fromUnit).toMgL / (UNIT_INFO toUnit).toMgL

/-- A sample as the detector sees it: a mapping from metals to optionally
present concentration values (`Record<Metal, number | undefined>`). -/
structure Sample where
  concentrations : Metal → Option ℚ

/-- The value-collection phase of `detectUnitForDataset`: every present,
strictly positive concentration across all metals of all samples. -/
def collectAllValues (samples : List Sample) : List ℚ :=
  samples.flatMap fun s =>
    allMetals.filterMap fun me =>
      match s.concentrations me with
      | some v => if v > 0 then some v else none
      | none => none

/-- The inner any-metal plausibility test of the detector: does `v` fall in
at least one metal's typical range for unit `u`? -/
def fitsAnyRange (v : ℚ) (u : Unit) : Bool :=
  allMetals.any fun me =>
    decide ((TYPICAL_RANGES me u).min ≤ v ∧ v ≤ (TYPICAL_RANGES me u).max)

/-- The detector's score of unit `u` over the collected values: how many
values are plausible for `u` under the any-metal test. -/
def unitScore (vals : List ℚ) (u : Unit) : Nat :=
  vals.countP fun v => fitsAnyRange v u

/-- The selection loop of the detector: the running maximum is seeded with
MG_L's score, then every unit in enumeration order replaces it only on a
strictly greater score. -/
def selectBestUnit (score : Unit → Nat) : Unit :=
  (AVAILABLE_UNITS.foldl
    (fun best u => if score u > best.2 then (u, score u) else best)
    (MG_L, score MG_L)).1

/-- `detectUnitForDataset` of the source. -/
def detectUnitForDataset (samples : List Sample) : Unit :=
  if samples.isEmpty then MG_L
  else
    let allValues := collectAllValues samples
    if allValues.isEmpty then MG_L
    else selectBestUnit (unitScore allValues)

/-- The `unitMappings` table of `parseUnit`, entry for entry. -/
def unitMappings : List (String × Unit) :=
  [("mg/l", MG_L), ("mgl", MG_L), ("mg per l", MG_L), ("mg per liter", MG_L),
   ("milligrams per liter", MG_L),
   ("ppm", PPM), ("parts per million", PPM),
   ("ppb", PPB), ("parts per billion", PPB),
   ("μg/l", UG_L), ("ug/l", UG_L), ("ugl", UG_L),
   ("micrograms per liter", UG_L), ("μg per l", UG_L), ("ug per l", UG_L)]

/-- Model of the JavaScript `String.prototype.toLowerCase` used by
`parseUnit`, applied character by character over the string's characters
(ASCII lowering; the spellings in the mapping table are ASCII and `μ` is
already lower case). -/
def toLowerStr (s : String) : String := ⟨s.data.map Char.toLower⟩

/-- Model of the JavaScript `String.prototype.trim` used by `parseUnit`:
drop whitespace characters from both ends of the string. -/
def trimStr (s : String) : String :=
  ⟨((s.data.dropWhile Char.isWhitespace).reverse.dropWhile Char.isWhitespace).reverse⟩

/-- The normalization of `parseUnit`: lower-case, then trim whitespace. -/
def normalize (s : String) : String := trimStr (toLowerStr s)

/-- `parseUnit` of the source: look the normalized string up in the fixed
mapping table; `null` becomes `none`. -/
def parseUnit (unitStr : String) : Option Unit :=
  unitMappings.lookup (normalize unitStr)

/-- The spelling variants the mapping table lists for a given unit. -/
def variantsOf (u : Unit) : List String :=
  (unitMappings.filter fun p => p.2 = u).map Prod.fst

/-- `getBestDisplayUnit` of the source: below 0.001 mg/L prefer PPB when
the ppb magnitude is at least 0.1, else UG_L; otherwise MG_L or PPM. -/
def getBestDisplayUnit (value : ℚ) (currentUnit : Unit) (metal : Metal) : Unit :=
  let mgLValue := convertUnit value currentUnit MG_L
  if mgLValue < 0.001 then
    let ppbValue := convertUnit mgLValue MG_L PPB
    if ppbValue ≥ 0.1 then PPB else UG_L
  else if mgLValue ≥ 0.001 then MG_L else PPM

/-- The position of a unit in the enumeration order {MG_L, PPM, PPB, UG_L}
of the TypeScript `enum Unit`. -/
def unitIdx : Unit → Nat
  | MG_L => 0
  | PPM => 1
  | PPB => 2
  | UG_L => 3

/-- A concrete sample whose only present readings are Pb = 80, Cr = 150 and
Zn = 300, every other metal absent. -/
def exampleSample : Sample :=
  ⟨fun me => match me with
    | Metal.Pb => some 80
    | Metal.Cr => some 150
    | Metal.Zn => some 300
    | _ => none⟩

/-- A concrete sample in which every metal's reading is present but zero. -/
def allZeroSample : Sample := ⟨fun _ => some 0⟩

/-! Helper lemmas shared by the theorems below. -/

/-- The selection loop always returns a unit of maximal score, and among the
units sharing that maximal score it returns the earliest in enumeration
order, because the running maximum is seeded with MG_L's score and is
replaced only on a strictly greater score. -/
theorem selectBestUnit_spec (f : Unit → Nat) (u : Unit) :
    f u ≤ f (selectBestUnit f)
    ∧ (f u = f (selectBestUnit f) → unitIdx (selectBestUnit f) ≤ unitIdx u) := by
  simp only [selectBestUnit, AVAILABLE_UNITS, List.foldl_cons, List.foldl_nil]
  split_ifs <;> cases u <;> simp_all [unitIdx] <;> omega

/-- The detector agrees with its selection loop on every input: in the two
degenerate branches the collected value list is empty, every score is 0,
and the loop also yields the MG_L default. -/
theorem detect_eq_selectBest (samples : List Sample) :
    detectUnitForDataset samples
      = selectBestUnit (unitScore (collectAllValues samples)) := by
  simp only [detectUnitForDataset]
  split_ifs with h1 h2
  · obtain rfl : samples = [] := List.isEmpty_iff.mp h1
    decide
  · obtain h : collectAllValues samples = [] := List.isEmpty_iff.mp h2
    rw [h]; decide
  · rfl

/-- If the scores of PPM and MG_L agree and the scores of UG_L and PPB
agree, the selection loop can only return MG_L or PPB. -/
theorem selectBest_of_pairs (f : Unit → Nat) (h1 : f PPM = f MG_L) (h2 : f UG_L = f PPB) :
    selectBestUnit f = MG_L ∨ selectBestUnit f = PPB := by
  simp only [selectBestUnit, AVAILABLE_UNITS, List.foldl_cons, List.foldl_nil]
  split_ifs <;> simp_all <;> omega

/-- A value of magnitude at least 50 lies above every metal's MG_L band and
every metal's PPM band (their maxima are at most 10). -/
theorem not_fits_low (v : ℚ) (h : 50 ≤ v) :
    fitsAnyRange v MG_L = false ∧ fitsAnyRange v PPM = false := by
  constructor <;>
  · simp only [fitsAnyRange, allMetals, List.any_eq_false, decide_eq_true_eq]
    intro me hme
    cases me <;> (rintro ⟨-, h2⟩; simp only [TYPICAL_RANGES] at h2; linarith)

/-- A value between 50 and 500 lies inside chromium's PPB band [1, 500] and
inside chromium's UG_L band [1, 500]. -/
theorem fits_mid (v : ℚ) (h1 : 50 ≤ v) (h2 : v ≤ 500) :
    fitsAnyRange v PPB = true ∧ fitsAnyRange v UG_L = true := by
  constructor <;>
  · simp only [fitsAnyRange, List.any_eq_true, decide_eq_true_eq]
    exact ⟨Metal.Cr, by simp [allMetals],
      by simp only [TYPICAL_RANGES]; constructor <;> linarith⟩

/-- A lookup in an association list with pairwise distinct keys succeeds
with value `u` exactly when the key is listed among the keys carrying `u`. -/
theorem lookup_iff_mem (l : List (String × Unit)) (hnd : (l.map Prod.fst).Nodup)
    (t : String) (u : Unit) :
    l.lookup t = some u ↔ t ∈ (l.filter fun p => p.2 = u).map Prod.fst := by
  induction l with
  | nil => simp
  | cons p tl ih =>
    obtain ⟨k, v⟩ := p
    simp only [List.map_cons, List.nodup_cons] at hnd
    obtain ⟨hk, hnd'⟩ := hnd
    by_cases h : t = k
    · subst h
      by_cases hvu : v = u
      · subst hvu
        simp [List.lookup_cons, List.filter_cons]
      · have hnotmem : t ∉ (tl.filter fun p => decide (p.2 = u)).map Prod.fst := by
          intro hmem
          apply hk
          obtain ⟨q, hq, rfl⟩ := List.mem_map.mp hmem
          exact List.mem_map.mpr ⟨q, (List.mem_filter.mp hq).1, rfl⟩
        simp [List.lookup_cons, List.filter_cons, hvu, hnotmem]
    · have hbeq : (t == k) = false := beq_eq_false_iff_ne.mpr h
      simp [List.lookup_cons, hbeq, List.filter_cons, ih hnd']
      by_cases hvu : v = u <;> simp [hvu, h]

/-- The collected values of the singleton dataset `[exampleSample]` are
exactly 80, 150 and 300, in metal enumeration order. -/
theorem collect_example : collectAllValues [exampleSample] = [80, 150, 300] := by
  norm_num [collectAllValues, allMetals, exampleSample, List.flatMap_cons,
    List.flatMap_nil, List.filterMap_cons, List.filterMap_nil]

/-! The claims. -/

/-- C1 (corrected), counterexample: the claim says `getBestDisplayUnit`
never returns UG_L, but on the value 0.00005 mg/L the canonical magnitude
is below 0.001, its ppb magnitude 0.05 is below 0.1, and the function
returns UG_L. -/
theorem best_display_ugl_counterexample :
    getBestDisplayUnit 0.00005 MG_L Metal.Pb = UG_L := by
  have h0 : convertUnit 0.00005 MG_L MG_L = 0.00005 := if_pos rfl
  have h1 : convertUnit (0.00005 : ℚ) MG_L PPB = 0.05 := by
    rw [convertUnit, if_neg (by decide)]; norm_num [UNIT_INFO]
  simp only [getBestDisplayUnit, h0, h1]
  norm_num

/-- C1 (amended): for every value, unit and metal, `getBestDisplayUnit`
never returns PPM — that branch is unreachable because its guard
`mgLValue ≥ 0.001` always holds once the `< 0.001` branch is excluded.
The UG_L branch, however, is reachable (see the counterexample), so the
result ranges over MG_L, PPB and UG_L. -/
theorem best_display_never_ppm (v : ℚ) (u : Unit) (me : Metal) :
    getBestDisplayUnit v u me ≠ PPM := by
  simp only [getBestDisplayUnit]
  split_ifs with h1 h2 h3
  · simp
  · simp
  · simp
  · exact absurd (le_of_not_lt h1) h3

/-- C2: on any dataset whose collected positive readings all lie in the
50 – 500 band (such as Pb = 80, Cr = 150, Zn = 300), the detector scores
PPB and UG_L strictly above MG_L and PPM, and returns PPB. -/
theorem detect_midrange (samples : List Sample)
    (hne : collectAllValues samples ≠ [])
    (hmem : ∀ v ∈ collectAllValues samples, 50 ≤ v ∧ v ≤ 500) :
    unitScore (collectAllValues samples) PPB > unitScore (collectAllValues samples) MG_L
    ∧ unitScore (collectAllValues samples) PPB > unitScore (collectAllValues samples) PPM
    ∧ unitScore (collectAllValues samples) UG_L > unitScore (collectAllValues samples) MG_L
    ∧ unitScore (collectAllValues samples) UG_L > unitScore (collectAllValues samples) PPM
    ∧ detectUnitForDataset samples = PPB := by
  set vals := collectAllValues samples with hv
  have hmg : unitScore vals MG_L = 0 := by
    rw [unitScore, List.countP_eq_zero]
    intro v hvv
    simp [(not_fits_low v (hmem v hvv).1).1]
  have hppm : unitScore vals PPM = 0 := by
    rw [unitScore, List.countP_eq_zero]
    intro v hvv
    simp [(not_fits_low v (hmem v hvv).1).2]
  have hppb : unitScore vals PPB = vals.length := by
    rw [unitScore, List.countP_eq_length]
    intro v hvv
    exact (fits_mid v (hmem v hvv).1 (hmem v hvv).2).1
  have hugl : unitScore vals UG_L = vals.length := by
    rw [unitScore, List.countP_eq_length]
    intro v hvv
    exact (fits_mid v (hmem v hvv).1 (hmem v hvv).2).2
  have hlen : 0 < vals.length := List.length_pos.mpr hne
  refine ⟨by omega, by omega, by omega, by omega, ?_⟩
  rw [detect_eq_selectBest, ← hv]
  simp only [selectBestUnit, AVAILABLE_UNITS, List.foldl_cons, List.foldl_nil]
  rw [hmg, hppm, hppb, hugl]
  simp [hlen, lt_irrefl]

/-- C2, witness: the singleton dataset with Pb = 80, Cr = 150, Zn = 300
has a nonempty collected value list and the detector returns PPB on it. -/
theorem detect_midrange_witness :
    collectAllValues [exampleSample] ≠ []
    ∧ detectUnitForDataset [exampleSample] = PPB := by
  have h1 : collectAllValues [exampleSample] ≠ [] := by
    rw [collect_example]; simp
  have h2 : ∀ v ∈ collectAllValues [exampleSample], 50 ≤ v ∧ v ≤ 500 := by
    rw [collect_example]
    intro v hvv
    simp only [List.mem_cons, List.not_mem_nil, or_false] at hvv
    rcases hvv with rfl | rfl | rfl <;> norm_num
  exact ⟨h1, (detect_midrange [exampleSample] h1 h2).2.2.2.2⟩

/-- C3: the unit the detector returns always scores at least as high as
every other unit, and whenever another unit ties with it, the returned
unit is the earlier one in the enumeration order {MG_L, PPM, PPB, UG_L};
this is forced by seeding the running maximum with MG_L's score and
replacing it only on a strictly greater score. -/
theorem detect_tiebreak (samples : List Sample) (u : Unit) :
    unitScore (collectAllValues samples) u
      ≤ unitScore (collectAllValues samples) (detectUnitForDataset samples)
    ∧ (unitScore (collectAllValues samples) u
        = unitScore (collectAllValues samples) (detectUnitForDataset samples)
       → unitIdx (detectUnitForDataset samples) ≤ unitIdx u) := by
  have h := selectBestUnit_spec (unitScore (collectAllValues samples)) u
  rwa [← detect_eq_selectBest] at h

/-- C3, witness: on the empty dataset every unit scores 0, PPM ties with
the returned unit MG_L, and MG_L is the earlier of the two. -/
theorem detect_tiebreak_witness :
    unitScore (collectAllValues []) PPM
      ≤ unitScore (collectAllValues []) (detectUnitForDataset [])
    ∧ unitIdx (detectUnitForDataset []) ≤ unitIdx PPM :=
  ⟨(detect_tiebreak [] PPM).1, (detect_tiebreak [] PPM).2 (by decide)⟩

/-- C4: converting any value from MG_L to PPM, or from PPB to UG_L,
returns the value unchanged even though both conversions take the
multiply-then-divide path (the factors of each pair are equal). -/
theorem equivalence_pairs (v : ℚ) :
    convertUnit v MG_L PPM = v ∧ convertUnit v PPB UG_L = v := by
  constructor
  · rw [convertUnit, if_neg (by decide)]; norm_num [UNIT_INFO]
  · rw [convertUnit, if_neg (by decide)]; norm_num [UNIT_INFO]

/-- C5: for every positive value and every pair of units, converting there
and back recovers the value exactly over the exact-arithmetic embedding
of the conversion factors. -/
theorem round_trip (v : ℚ) (u1 u2 : Unit) (hv : 0 < v) :
    convertUnit (convertUnit v u1 u2) u2 u1 = v := by
  cases u1 <;> cases u2 <;> simp [convertUnit, UNIT_INFO] <;> field_simp

/-- C5, witness: the round trip at the positive value 3 from MG_L to PPB
and back. -/
theorem round_trip_witness :
    0 < (3 : ℚ) ∧ convertUnit (convertUnit 3 MG_L PPB) PPB MG_L = 3 :=
  ⟨by norm_num, round_trip 3 MG_L PPB (by norm_num)⟩

/-- C6: the detector returns the MG_L default on the empty dataset, and on
any dataset in which every concentration entry is absent or non-positive,
so that no value is collected. -/
theorem detect_default :
    detectUnitForDataset [] = MG_L
    ∧ ∀ samples, (∀ s ∈ samples, ∀ me v, s.concentrations me = some v → v ≤ 0)
       → detectUnitForDataset samples = MG_L := by
  refine ⟨rfl, fun samples h => ?_⟩
  have hvals : collectAllValues samples = [] := by
    simp only [collectAllValues, List.flatMap_eq_nil_iff]
    intro s hs
    rw [List.filterMap_eq_nil_iff]
    intro me _
    cases hme : s.concentrations me with
    | none => rfl
    | some v =>
      have hv := h s hs me v hme
      simp [not_lt.mpr hv]
  simp only [detectUnitForDataset, hvals]
  split_ifs <;> rfl

/-- C6, witness: a singleton dataset whose sample carries a zero reading
for every metal yields the MG_L default. -/
theorem detect_default_witness : detectUnitForDataset [allZeroSample] = MG_L :=
  detect_default.2 [allZeroSample] (by
    intro s hs me v hv
    simp only [List.mem_singleton] at hs
    subst hs
    simp only [allZeroSample] at hv
    injection hv with h
    exact h ▸ le_refl 0)

/-- C7: `parseUnit` recognizes a string as unit `u` exactly when its
lower-cased, trimmed form is one of the spelling variants the mapping
table lists for `u`; in particular every unit's registry symbol and name
parse back to that unit, and the string "banana" is not recognized. -/
theorem parser_spec :
    (∀ s u, parseUnit s = some u ↔ normalize s ∈ variantsOf u)
    ∧ (∀ u, parseUnit (UNIT_INFO u).symbol = some u
           ∧ parseUnit (UNIT_INFO u).name = some u)
    ∧ parseUnit "banana" = none := by
  refine ⟨fun s u => ?_, fun u => ?_, by decide⟩
  · exact lookup_iff_mem unitMappings (by decide) (normalize s) u
  · cases u <;> exact ⟨by decide, by decide⟩

/-- C7, witness: the recognition equivalence instantiated at the concrete
string "ppm", together with the rejection of "banana". -/
theorem parser_spec_witness :
    parseUnit "ppm" = some PPM ∧ parseUnit "banana" = none :=
  ⟨(parser_spec.1 "ppm" PPM).mpr (by decide), parser_spec.2.2⟩

/-- C8: the metal argument does not influence `getBestDisplayUnit`; the
function never inspects it. -/
theorem metal_irrelevant (v : ℚ) (u : Unit) (m1 m2 : Metal) :
    getBestDisplayUnit v u m1 = getBestDisplayUnit v u m2 := rfl

/-- C9: every unit's factor to the canonical unit is strictly positive, and
`convertUnit` always equals the total multiply-then-divide formula — the
division is well-defined on the whole closed Unit enumeration, including
the identity short-circuit case. -/
theorem factors_pos_and_total :
    (∀ u, 0 < (UNIT_INFO u).toMgL)
    ∧ ∀ (v : ℚ) (u1 u2 : Unit),
        convertUnit v u1 u2 = v * (UNIT_INFO u1).toMgL / (UNIT_INFO u2).toMgL := by
  constructor
  · intro u; cases u <;> norm_num [UNIT_INFO]
  · intro v u1 u2
    by_cases h : u1 = u2
    · subst h
      rw [convertUnit, if_pos rfl]
      cases u1 <;> norm_num [UNIT_INFO]
    · rw [convertUnit, if_neg h]

/-- C10: for every metal the MG_L and PPM bands coincide and the PPB and
UG_L bands coincide, so the paired scores are always equal and the
strict-greater tie-break makes the detector return only MG_L or PPB,
never PPM or UG_L. -/
theorem detect_only_mgl_or_ppb :
    (∀ me, TYPICAL_RANGES me MG_L = TYPICAL_RANGES me PPM
           ∧ TYPICAL_RANGES me PPB = TYPICAL_RANGES me UG_L)
    ∧ ∀ samples, detectUnitForDataset samples = MG_L
                 ∨ detectUnitForDataset samples = PPB := by
  constructor
  · intro me; cases me <;> exact ⟨rfl, rfl⟩
  · intro samples
    rw [detect_eq_selectBest]
    exact selectBest_of_pairs _ rfl rfl

end UnitConversion
